import Mathlib

/-!
Verification of the symbol-translation and request-pipeline core of the
hl-sdk TypeScript repository, via a shallow embedding in Lean.

JS `Map<string, V>` objects are embedded as association lists in insertion
order (JS maps preserve insertion order; `set` on an existing key updates
the value in place, `entries()` iterates in insertion order).  JS strings
are Lean `String`s, JS integer-valued fields are `Nat`, JS numbers that
feed arithmetic (the rate limiter's fractional token counts) are `ℚ`
(IEEE-754 rounding is abstracted to exact rational arithmetic).  Methods
that can throw are embedded in `Except`; `Promise` plumbing is dropped and
asynchronous methods are modelled as functions of the values they await.
-/

/-- JS `Map.get`: value of the first (and, for maps built by `mapSet`, only)
entry with the given key, or `none`. -/
def mapGet (m : List (String × α)) (k : String) : Option α :=
  (m.find? (fun p => p.1 = k)).map (fun p => p.2)

/-- JS `Map.set`: if the key is present, update its value in place (the entry
keeps its position); otherwise append a new entry at the end. -/
def mapSet (m : List (String × α)) (k : String) (v : α) : List (String × α) :=
  match m with
  | [] => [(k, v)]
  | (k', v') :: t => if k' = k then (k, v) :: t else (k', v') :: mapSet t k v

/-- State of `SymbolConverter` (src/utils/symbolConverter.ts): the
exchange-name-to-internal-name map and the internal-name-to-asset-index map. -/
structure SymbolConverter where
  exchangeToInternalNameMap : List (String × String)
  assetToIndexMap : List (String × Nat)
deriving DecidableEq

/-- `SymbolConverter.updateMaps`: both maps are replaced together by the two
freshly built maps. -/
def SymbolConverter.updateMaps (_c : SymbolConverter)
    (exchangeToInternalNameMap : List (String × String))
    (assetToIndexMap : List (String × Nat)) : SymbolConverter :=
  { exchangeToInternalNameMap := exchangeToInternalNameMap,
    assetToIndexMap := assetToIndexMap }

/-- `SymbolConverter.getAssetIndex`. -/
def SymbolConverter.getAssetIndex (c : SymbolConverter) (assetName : String) : Option Nat :=
  mapGet c.assetToIndexMap assetName

/-- `SymbolConverter.getInternalName`. -/
def SymbolConverter.getInternalName (c : SymbolConverter) (exchangeName : String) : Option String :=
  mapGet c.exchangeToInternalNameMap exchangeName

/-- `SymbolConverter.convertSymbol(symbol, mode, symbolMode)`
(src/utils/symbolConverter.ts lines 30-48).  In `reverse` mode the forward
map is scanned for the first entry whose value equals `symbol` and its key is
returned; otherwise the forward map is consulted with `symbol` as key.  Both
fallbacks reproduce JS truthiness: a missing entry (`undefined`) and an empty
string are both falsy, so either way the original `symbol` is returned.
The `symbolMode` parameter is accepted but never read by this version. -/
def SymbolConverter.convertSymbol (c : SymbolConverter)
    (symbol : String) (mode : String := "") (symbolMode : String := "") : String :=
  if mode = "reverse" then
    match c.exchangeToInternalNameMap.find? (fun p => p.2 = symbol) with
    | some p => if p.1 = "" then symbol else p.1
    | none => symbol
  else
    match mapGet c.exchangeToInternalNameMap symbol with
    | some v => if v = "" then symbol else v
    | none => symbol

/-- JS `String.endsWith`, via the character list. -/
def jsEndsWith (s suffixStr : String) : Bool :=
  suffixStr.data.isSuffixOf s.data

/-- `WebSocketSubscriptions.convertSymbol(symbol, mode, symbolMode)`
(src/websocket/subscriptions.ts lines 68-85).  Same map logic as
`SymbolConverter.convertSymbol` (including the `|| symbol` truthiness
fallbacks), but afterwards, when `symbolMode` is `SPOT` (resp. `PERP`) and
the looked-up name does not already end in `-SPOT` (resp. `-PERP`), the
result is replaced by the original `symbol` with that suffix appended. -/
def wsConvertSymbol (exchangeToInternalNameMap : List (String × String))
    (symbol : String) (mode : String := "") (symbolMode : String := "") : String :=
  let rSymbol :=
    if mode = "reverse" then
      match exchangeToInternalNameMap.find? (fun p => p.2 = symbol) with
      | some p => if p.1 = "" then symbol else p.1
      | none => symbol
    else
      match mapGet exchangeToInternalNameMap symbol with
      | some v => if v = "" then symbol else v
      | none => symbol
  if symbolMode = "SPOT" ∧ ¬ jsEndsWith rSymbol "-SPOT" then symbol ++ "-SPOT"
  else if symbolMode = "PERP" ∧ ¬ jsEndsWith rSymbol "-PERP" then symbol ++ "-PERP"
  else rSymbol

/-- Interface adapter for the specification's `resolve(exchangeSymbol, index)`:
per SYMBOLS.md the forward conversion is invoked on the composite key
`"<exchangeSymbol>-<index>"` (e.g. `convertSymbol('BTC-0')`), realised by
`SymbolConverter.convertSymbol` in its default (forward) mode. -/
def SymbolConverter.resolve (c : SymbolConverter) (exchangeSymbol : String) (index : Nat) : String :=
  c.convertSymbol (exchangeSymbol ++ "-" ++ Nat.repr index) "" ""

/-- Interface adapter for the specification's `reverse(internalName)`:
`convertSymbol` in `reverse` mode. -/
def SymbolConverter.reverse (c : SymbolConverter) (internalName : String) : String :=
  c.convertSymbol internalName "reverse" ""

/-- JS `market.name.split('/')[0]`: the characters before the first `/`
(the whole string when no `/` occurs). -/
def jsSplitHead (s : String) : String :=
  String.mk (s.data.takeWhile (fun c => c ≠ '/'))

/-- One spot-universe entry as consumed by `BaseInfoAPI.processSpotAssets`
(src/rest/info/base.ts): an object with `name` and `index` fields. -/
structure SpotMarket where
  name : String
  index : Nat

/-- Loop body of `BaseInfoAPI.processPerpetualAssets`
(src/rest/info/base.ts lines 58-64): `universe.forEach((asset, index) => ...)`
adds `"<name>-<index>" ↦ "<name>-PERP-<index>"` to the exchange map and
`"<name>-PERP-<index>" ↦ index` to the index map. -/
def perpLoopBase (univ : List String) (index : Nat)
    (exchangeToInternalNameMap : List (String × String))
    (assetToIndexMap : List (String × Nat)) :
    List (String × String) × List (String × Nat) :=
  match univ with
  | [] => (exchangeToInternalNameMap, assetToIndexMap)
  | name :: rest =>
    let internalName := name ++ "-PERP-" ++ Nat.repr index
    let exchangeName := name ++ "-" ++ Nat.repr index
    perpLoopBase rest (index + 1)
      (mapSet exchangeToInternalNameMap exchangeName internalName)
      (mapSet assetToIndexMap internalName index)

/-- `BaseInfoAPI.processPerpetualAssets` applied to a well-shaped response
(`[{universe: [...]}, ...]`), starting the `forEach` position counter at 0. -/
def processPerpetualAssets (univ : List String)
    (exchangeToInternalNameMap : List (String × String))
    (assetToIndexMap : List (String × Nat)) :
    List (String × String) × List (String × Nat) :=
  perpLoopBase univ 0 exchangeToInternalNameMap assetToIndexMap

/-- Loop body of `BaseInfoAPI.processSpotAssets`
(src/rest/info/base.ts lines 73-81): for each market, the base name is
everything before the first `/` of the market name, the internal name is
`"<baseName>-SPOT-<market.index>"`, the exchange key is
`"<market.name>-<market.index>"`, and the stored index is
`10000 + market.index`. -/
def spotLoopBase (univ : List SpotMarket)
    (exchangeToInternalNameMap : List (String × String))
    (assetToIndexMap : List (String × Nat)) :
    List (String × String) × List (String × Nat) :=
  match univ with
  | [] => (exchangeToInternalNameMap, assetToIndexMap)
  | market :: rest =>
    let baseName := jsSplitHead market.name
    let internalName := baseName ++ "-SPOT-" ++ Nat.repr market.index
    let exchangeName := market.name ++ "-" ++ Nat.repr market.index
    spotLoopBase rest
      (mapSet exchangeToInternalNameMap exchangeName internalName)
      (mapSet assetToIndexMap internalName (10000 + market.index))

/-- `BaseInfoAPI.processSpotAssets` applied to a well-shaped response. -/
def processSpotAssets (univ : List SpotMarket)
    (exchangeToInternalNameMap : List (String × String))
    (assetToIndexMap : List (String × Nat)) :
    List (String × String) × List (String × Nat) :=
  spotLoopBase univ exchangeToInternalNameMap assetToIndexMap

/-- Shape of a metadata response as dynamically inspected by the guard
`Array.isArray(r) && r.length > 0 && r[0].universe` of both processing
methods.  `notArray` and `noUniverse` make the guard false (the method
returns without touching anything); `headThrows` stands for responses such
as `[null]` whose first element cannot be dereferenced, so evaluating the
guard itself throws a `TypeError`; `ok` carries the universe of a
well-shaped response. -/
inductive FetchShape (α : Type) where
  | notArray : FetchShape α
  | noUniverse : FetchShape α
  | headThrows : FetchShape α
  | ok : α → FetchShape α

/-- `BaseInfoAPI.processPerpetualAssets` on an arbitrary response shape:
an error is a thrown `TypeError`. -/
def processPerpetualAssetsResp (resp : FetchShape (List String))
    (exchangeToInternalNameMap : List (String × String))
    (assetToIndexMap : List (String × Nat)) :
    Except Unit (List (String × String) × List (String × Nat)) :=
  match resp with
  | .notArray => .ok (exchangeToInternalNameMap, assetToIndexMap)
  | .noUniverse => .ok (exchangeToInternalNameMap, assetToIndexMap)
  | .headThrows => .error ()
  | .ok univ => .ok (processPerpetualAssets univ exchangeToInternalNameMap assetToIndexMap)

/-- `BaseInfoAPI.processSpotAssets` on an arbitrary response shape. -/
def processSpotAssetsResp (resp : FetchShape (List SpotMarket))
    (exchangeToInternalNameMap : List (String × String))
    (assetToIndexMap : List (String × Nat)) :
    Except Unit (List (String × String) × List (String × Nat)) :=
  match resp with
  | .notArray => .ok (exchangeToInternalNameMap, assetToIndexMap)
  | .noUniverse => .ok (exchangeToInternalNameMap, assetToIndexMap)
  | .headThrows => .error ()
  | .ok univ => .ok (processSpotAssets univ exchangeToInternalNameMap assetToIndexMap)

/-- `BaseInfoAPI.refreshAssetMaps` (src/rest/info/base.ts lines 32-51).
The two metadata fetches are awaited first; a network/API failure is the
`Except.error` of the `fetch` argument.  On success two fresh local maps are
built by the two processing methods and only then installed together via
`updateMaps`.  Any exception — fetch rejection or processing throw — lands in
the `catch` block, which only logs: the converter keeps its previous maps. -/
def refreshAssetMaps (c : SymbolConverter)
    (fetch : Except Unit (FetchShape (List String) × FetchShape (List SpotMarket))) :
    SymbolConverter :=
  match fetch with
  | .error _ => c
  | .ok (perpMetaResponse, spotMetaResponse) =>
    match processPerpetualAssetsResp perpMetaResponse [] [] with
    | .error _ => c
    | .ok (em, am) =>
      match processSpotAssetsResp spotMetaResponse em am with
      | .error _ => c
      | .ok (em', am') => c.updateMaps em' am'

/-- State of the two legacy mapping fields of `HyperliquidAPI` (src/api.ts). -/
structure ApiMaps where
  exchangeToInternalNameMap : List (String × String)
  assetToIndexMap : List (String × Nat)
deriving DecidableEq

/-- Internal name constructed by the legacy `HyperliquidAPI.processPerpetualAssets`
(src/api.ts line 222): `` `${asset.name}-PERP` ``.  The `forEach` position
`index` is in scope at the construction site but does not occur in the
template literal. -/
def apiPerpInternalName (name : String) (_index : Nat) : String :=
  name ++ "-PERP"

/-- Loop of the legacy `HyperliquidAPI.processPerpetualAssets`
(src/api.ts lines 219-227): adds `"<name>-PERP" ↦ index` and
`"<name>" ↦ "<name>-PERP"` for each universe entry. -/
def perpLoopApi (univ : List String) (index : Nat) (st : ApiMaps) : ApiMaps :=
  match univ with
  | [] => st
  | name :: rest =>
    let internalName := apiPerpInternalName name index
    perpLoopApi rest (index + 1)
      { exchangeToInternalNameMap := mapSet st.exchangeToInternalNameMap name internalName,
        assetToIndexMap := mapSet st.assetToIndexMap internalName index }

/-- Legacy `HyperliquidAPI.processPerpetualAssets` on an arbitrary response
shape (guard as in `FetchShape`). -/
def processPerpetualAssetsApi (resp : FetchShape (List String)) (st : ApiMaps) :
    Except Unit ApiMaps :=
  match resp with
  | .notArray => .ok st
  | .noUniverse => .ok st
  | .headThrows => .error ()
  | .ok univ => .ok (perpLoopApi univ 0 st)

/-- One spot-universe entry as consumed by the legacy
`HyperliquidAPI.processSpotAssets` (src/api.ts): `market.tokens` is `none`
when the field is absent (dereferencing it throws). -/
structure SpotMarketApi where
  name : String
  tokens : Option (List Nat)

/-- Body of a legacy spot metadata response: the `universe` list and the
parallel `tokens` array.  A `tokens` entry is the `name` field of the token
object at that position, `none` when the object or its name is absent. -/
structure SpotBodyApi where
  univ : List SpotMarketApi
  tokens : Option (List (Option String))

/-- Loop of the legacy `HyperliquidAPI.processSpotAssets`
(src/api.ts lines 233-246).  For each market (at `forEach` position `index`):
if the body has no `tokens` array the entry is skipped; otherwise
`market.tokens[0]` is dereferenced — a `TypeError` when `market.tokens` is
absent — and the base token is looked up in the body's `tokens` array
(an out-of-range position yields `undefined`, which the `baseToken &&
baseToken.name` guard skips, as it does an absent or empty name).  A kept
entry adds `"<baseTokenName>-SPOT" ↦ 10000 + index` and
`"<market.name>" ↦ "<baseTokenName>-SPOT"`. -/
def spotLoopApi (body : SpotBodyApi) (univ : List SpotMarketApi) (index : Nat)
    (st : ApiMaps) : Except Unit ApiMaps :=
  match univ with
  | [] => .ok st
  | market :: rest =>
    match body.tokens with
    | none => spotLoopApi body rest (index + 1) st
    | some toks =>
      match market.tokens with
      | none => .error ()
      | some marketTokens =>
        let baseTokenName : Option String :=
          match marketTokens with
          | [] => none
          | ti :: _ => toks.getD ti none
        match baseTokenName with
        | some tokenName =>
          if tokenName = "" then spotLoopApi body rest (index + 1) st
          else
            let internalName := tokenName ++ "-SPOT"
            spotLoopApi body rest (index + 1)
              { exchangeToInternalNameMap := mapSet st.exchangeToInternalNameMap market.name internalName,
                assetToIndexMap := mapSet st.assetToIndexMap internalName (10000 + index) }
        | none => spotLoopApi body rest (index + 1) st

/-- Legacy `HyperliquidAPI.processSpotAssets` on an arbitrary response shape. -/
def processSpotAssetsApi (resp : FetchShape SpotBodyApi) (st : ApiMaps) :
    Except Unit ApiMaps :=
  match resp with
  | .notArray => .ok st
  | .noUniverse => .ok st
  | .headThrows => .error ()
  | .ok body => spotLoopApi body body.univ 0 st

/-- Legacy `HyperliquidAPI.refreshAssetToIndexMap` (src/api.ts lines 196-213).
After a successful fetch, both maps are cleared IN PLACE and then repopulated
by the two processing methods; an exception thrown while processing is caught
and only logged, leaving whatever partial state the mutation had reached.
A fetch failure is caught before the `clear()` calls, leaving the maps as
they were. -/
def refreshAssetToIndexMap (st : ApiMaps)
    (fetch : Except Unit (FetchShape (List String) × FetchShape SpotBodyApi)) : ApiMaps :=
  match fetch with
  | .error _ => st
  | .ok (perpMetaResponse, spotMetaResponse) =>
    let cleared : ApiMaps := { exchangeToInternalNameMap := [], assetToIndexMap := [] }
    match processPerpetualAssetsApi perpMetaResponse cleared with
    | .error _ => cleared
    | .ok st1 =>
      match processSpotAssetsApi spotMetaResponse st1 with
      | .error _ => st1
      | .ok st2 => st2

/-- Mutable state of `RateLimiter` (src/utils/rateLimiter.ts): the current
token count and the timestamp (ms) of the last refill.  Token counts are
fractional because refill is proportional to elapsed milliseconds. -/
structure RateLimiter where
  tokens : ℚ
  lastRefill : ℚ
deriving DecidableEq

/-- `this.capacity = 1200` (1200 tokens per minute). -/
def RateLimiter.capacity : ℚ := 1200

/-- `this.refillRate = this.capacity / 60` (tokens per second). -/
def RateLimiter.refillRate : ℚ := RateLimiter.capacity / 60

/-- `RateLimiter.refillTokens` (src/utils/rateLimiter.ts lines 28-34) at
wall-clock time `now`: credit `elapsedSeconds * refillRate` tokens, capped at
capacity, and record `now` as the last refill time. -/
def RateLimiter.refillTokens (s : RateLimiter) (now : ℚ) : RateLimiter :=
  { tokens := min RateLimiter.capacity (s.tokens + (now - s.lastRefill) / 1000 * RateLimiter.refillRate),
    lastRefill := now }

/-- Outcome of one `waitForToken` call.  `errorExceedsCapacity` is the thrown
`"Requested tokens exceed capacity"` error, carrying the (unchanged) limiter
state; `completed` carries the number of `setTimeout` sleeps taken by the
`while` loop and the final state after `this.tokens -= weight`; `pending`
means the call is still suspended in the loop once the supplied wake-up
schedule has been exhausted. -/
inductive WaitOutcome where
  | errorExceedsCapacity : RateLimiter → WaitOutcome
  | completed : Nat → RateLimiter → WaitOutcome
  | pending : RateLimiter → WaitOutcome
deriving DecidableEq

/-- The `while (this.tokens < weight)` loop of `waitForToken`: each iteration
sleeps (one entry of `wakeups`, the wall-clock times at which the timeouts
fire) and refills; when the tokens suffice, `weight` tokens are consumed. -/
def waitLoop (weight : ℚ) (s : RateLimiter) (wakeups : List ℚ) (sleeps : Nat) : WaitOutcome :=
  if s.tokens < weight then
    match wakeups with
    | [] => .pending s
    | w :: rest => waitLoop weight (s.refillTokens w) rest (sleeps + 1)
  else
    .completed sleeps { s with tokens := s.tokens - weight }

/-- `RateLimiter.waitForToken(weight)` (src/utils/rateLimiter.ts lines 14-26)
called at wall-clock time `now`: if `weight > capacity` the call throws
immediately — before any refill, sleep or token consumption; otherwise it
refills and enters the wait loop. -/
def RateLimiter.waitForToken (s : RateLimiter) (weight : ℚ) (now : ℚ)
    (wakeups : List ℚ) : WaitOutcome :=
  if RateLimiter.capacity < weight then .errorExceedsCapacity s
  else waitLoop weight (s.refillTokens now) wakeups 0

/-- Nonce attached by `ExchangeAPI.placeOrder` (src/rest/exchange.ts line 37):
`const nonce = Date.now()` — the wall-clock millisecond reading at the call,
with no per-signer uniqueness bookkeeping. -/
def placeOrderNonce (dateNow : Nat) : Nat := dateNow

/-- Nonce attached by `ExchangeAPI.cancelOrder` (src/rest/exchange.ts
line 63): also `const nonce = Date.now()`. -/
def cancelOrderNonce (dateNow : Nat) : Nat := dateNow

/-- Nonces carried by a sequence of signed actions, one per wall-clock
reading taken at each signing (every authenticated `ExchangeAPI` method uses
the same `Date.now()` pattern). -/
def sessionNonces (actionTimes : List Nat) : List Nat :=
  actionTimes.map placeOrderNonce

/-- Correlation id generated by `WebSocketSubscriptions.postRequest`
(src/websocket/subscriptions.ts line 204): `const id = Date.now()` — the
wall-clock millisecond reading at the time the request is created. -/
def postRequestId (dateNow : Nat) : Nat := dateNow

/-- Discriminator of the per-request `responseHandler`
(src/websocket/subscriptions.ts line 216): a handler registered for `id`
settles its promise exactly when an inbound frame satisfies
`message.channel === 'post' && message.data.id === id`. -/
def responseHandlerMatches (id : Nat) (channel : String) (dataId : Nat) : Bool :=
  channel = "post" && dataId = id

/-- The `EventEmitter` delivers every inbound frame to every registered
listener (`this.ws.on('message', responseHandler)`), so the in-flight
requests whose promises a single frame settles are exactly those whose
correlation id matches it. -/
def listenersTriggered (inflightIds : List Nat) (channel : String) (dataId : Nat) : List Nat :=
  inflightIds.filter (fun id => responseHandlerMatches id channel dataId)

/-- Digits of a decimal literal read as a natural number. -/
def digitsToNat (cs : List Char) : Nat :=
  cs.foldl (fun a c => a * 10 + (c.toNat - Char.toNat '0')) 0

/-- Characters after an optional leading minus sign. -/
def stripNeg (cs : List Char) : List Char :=
  match cs with
  | '-' :: rest => rest
  | cs => cs

/-- Nonempty all-digit character run (`\d+`). -/
def digitsSome (cs : List Char) : Bool :=
  !cs.isEmpty && cs.all (fun c => c.isDigit)

/-- JS regex `/^-?\d+$/` used by `convertToNumber`. -/
def jsIsIntStr (s : String) : Bool :=
  digitsSome (stripNeg s.data)

/-- JS regex `/^-?\d*\.\d+$/` used by `convertToNumber`: an optional minus,
optional integer digits, a single dot, then at least one fractional digit. -/
def jsIsDecStr (s : String) : Bool :=
  match (stripNeg s.data).splitOn '.' with
  | [intPart, fracPart] => intPart.all (fun c => c.isDigit) && digitsSome fracPart
  | _ => false

/-- JS `parseInt(s, 10)` on a full integer literal. -/
def jsParseIntVal (s : String) : Int :=
  match s.data with
  | '-' :: rest => -(digitsToNat rest : Int)
  | cs => (digitsToNat cs : Int)

/-- JS `parseFloat(s)` on a full decimal literal, with IEEE-754 rounding
abstracted to the exact rational value of the literal. -/
def jsParseFloatVal (s : String) : ℚ :=
  let mag : ℚ :=
    match (stripNeg s.data).splitOn '.' with
    | [intPart, fracPart] =>
      (digitsToNat intPart : ℚ) + (digitsToNat fracPart : ℚ) / ((10 : ℚ) ^ fracPart.length)
    | _ => 0
  match s.data with
  | '-' :: _ => -mag
  | _ => mag

mutual

/-- A JSON-like JS value: scalar leaves, arrays and objects.  Arrays and
object field lists are given by their own spine types so that mutual
structural recursion mirrors the recursive JS traversal. -/
inductive JsVal where
  | str : String → JsVal
  | num : ℚ → JsVal
  | jsBool : Bool → JsVal
  | null : JsVal
  | arr : JsArr → JsVal
  | obj : JsObj → JsVal

/-- Spine of a JS array. -/
inductive JsArr where
  | nil : JsArr
  | cons : JsVal → JsArr → JsArr

/-- Spine of a JS object: fields in `Object.entries` order. -/
inductive JsObj where
  | nil : JsObj
  | cons : String → JsVal → JsObj → JsObj

end

/-- `SymbolConverter.convertToNumber` (src/utils/symbolConverter.ts lines
72-81): a string matching `/^-?\d+$/` becomes its `parseInt` value, a string
matching `/^-?\d*\.\d+$/` its `parseFloat` value; everything else is returned
unchanged. -/
def convertToNumber (v : JsVal) : JsVal :=
  match v with
  | .str s =>
    if jsIsIntStr s then .num ((jsParseIntVal s : Int) : ℚ)
    else if jsIsDecStr s then .num (jsParseFloatVal s)
    else .str s
  | v => v

/-- Value stored for a key listed in `symbolsFields`: the TS code calls
`this.convertSymbol(value as string, '', symbolMode)`.  For a non-string
value the `Map.get` lookup misses (the map's keys are strings) and both
truthiness fallbacks return the original value unchanged. -/
def convertSymbolOnValue (c : SymbolConverter) (v : JsVal) (symbolMode : String) : JsVal :=
  match v with
  | .str s => .str (c.convertSymbol s "" symbolMode)
  | v => v

/-- Value stored for a field literally named `side`:
`value === 'A' ? 'sell' : value === 'B' ? 'buy' : value`. -/
def sideValue (v : JsVal) : JsVal :=
  match v with
  | .str "A" => .str "sell"
  | .str "B" => .str "buy"
  | v => v

mutual

/-- `SymbolConverter.convertSymbolsInObject(obj, symbolsFields, symbolMode)`
(src/utils/symbolConverter.ts lines 50-70).  Non-object values go through
`convertToNumber`; arrays are mapped elementwise; for objects, each field is
rebuilt — by the symbol-field rule when its key is in `symbolsFields`, by the
`side` enum rule when the key is `side`, and by recursion otherwise. -/
def SymbolConverter.convertSymbolsInObject (c : SymbolConverter) (obj : JsVal)
    (symbolsFields : List String) (symbolMode : String) : JsVal :=
  match obj with
  | .arr items => .arr (convArrItems c items symbolsFields symbolMode)
  | .obj fields => .obj (convObjFields c fields symbolsFields symbolMode)
  | v => convertToNumber v

/-- `obj.map(item => this.convertSymbolsInObject(item, ...))`. -/
def convArrItems (c : SymbolConverter) (items : JsArr)
    (symbolsFields : List String) (symbolMode : String) : JsArr :=
  match items with
  | .nil => .nil
  | .cons v rest =>
    .cons (SymbolConverter.convertSymbolsInObject c v symbolsFields symbolMode)
      (convArrItems c rest symbolsFields symbolMode)

/-- The `for (const [key, value] of Object.entries(obj))` loop of
`convertSymbolsInObject`. -/
def convObjFields (c : SymbolConverter) (fields : JsObj)
    (symbolsFields : List String) (symbolMode : String) : JsObj :=
  match fields with
  | .nil => .nil
  | .cons key v rest =>
    let v' :=
      if symbolsFields.contains key then convertSymbolOnValue c v symbolMode
      else if key = "side" then sideValue v
      else SymbolConverter.convertSymbolsInObject c v symbolsFields symbolMode
    .cons key v' (convObjFields c rest symbolsFields symbolMode)

end

/-- Modelled from the spec: "for every field whose key is in the symbol-field
set, replaces its string value by resolve of that value" (a value that is not
a string passes through unchanged). -/
def specSymbolFieldRule (c : SymbolConverter) (v : JsVal) (forcedMode : String) : JsVal :=
  match v with
  | .str s => .str (c.convertSymbol s "" forcedMode)
  | v => v

/-- Modelled from the spec: "for every field literally named side, maps A to
sell and B to buy and leaves every other side value verbatim". -/
def specSideRule (v : JsVal) : JsVal :=
  match v with
  | .str "A" => .str "sell"
  | .str "B" => .str "buy"
  | v => v

mutual

/-- Modelled from the spec: the embedded-translation rule set as the
specification words it — "for every field whose key is in the symbol-field
set, replaces its string value by resolve of that value; for every field
literally named side, maps A to sell and B to buy and leaves every other
side value verbatim; coerces every other string leaf that is syntactically an
integer or a decimal to a number; and passes every other value through
unchanged" — written independently for comparison with the source embedding
`SymbolConverter.convertSymbolsInObject`. -/
def translateEmbeddedSpec (c : SymbolConverter) (v : JsVal)
    (symbolFields : List String) (forcedMode : String) : JsVal :=
  match v with
  | .str s =>
    if jsIsIntStr s then .num ((jsParseIntVal s : Int) : ℚ)
    else if jsIsDecStr s then .num (jsParseFloatVal s)
    else .str s
  | .arr items => .arr (specArrItems c items symbolFields forcedMode)
  | .obj fields => .obj (specObjFields c fields symbolFields forcedMode)
  | v => v

/-- Deep traversal of array elements, per the spec. -/
def specArrItems (c : SymbolConverter) (items : JsArr)
    (symbolFields : List String) (forcedMode : String) : JsArr :=
  match items with
  | .nil => .nil
  | .cons v rest =>
    .cons (translateEmbeddedSpec c v symbolFields forcedMode)
      (specArrItems c rest symbolFields forcedMode)

/-- Field rules of the spec's embedded translation, in the claim's order:
symbol-field rule first, then the `side` rule, then recursion. -/
def specObjFields (c : SymbolConverter) (fields : JsObj)
    (symbolFields : List String) (forcedMode : String) : JsObj :=
  match fields with
  | .nil => .nil
  | .cons key v rest =>
    let v' :=
      if symbolFields.contains key then specSymbolFieldRule c v forcedMode
      else if key = "side" then specSideRule v
      else translateEmbeddedSpec c v symbolFields forcedMode
    .cons key v' (specObjFields c rest symbolFields forcedMode)

end

deriving instance DecidableEq for Except

/-- Auxiliary scan for `jsIncludes`: does `pat` occur starting at any
position of `l`? -/
def jsIncludesAux (pat : List Char) : List Char → Bool
  | [] => pat.isPrefixOf []
  | c :: t => pat.isPrefixOf (c :: t) || jsIncludesAux pat t

/-- JS `String.includes`, the `-PERP-`/`-SPOT-` marker test used by
`SymbolConverter.getAllAssets` to classify internal names. -/
def jsIncludes (s pat : String) : Bool :=
  jsIncludesAux pat.data s.data

/-- Registry generation produced by a refresh seeing one perpetual listing
`BTC` at position 0. -/
def convBTC : SymbolConverter :=
  SymbolConverter.updateMaps ⟨[], []⟩
    (processPerpetualAssets ["BTC"] [] []).1
    (processPerpetualAssets ["BTC"] [] []).2

/-- Registry generation produced by a refresh seeing the two spot markets
`PURR/USDC` and `PURR/USDT`, both carrying venue index 0 (same base token,
so both construct the internal name `PURR-SPOT-0`). -/
def convPURR : SymbolConverter :=
  SymbolConverter.updateMaps ⟨[], []⟩
    (processSpotAssets [⟨"PURR/USDC", 0⟩, ⟨"PURR/USDT", 0⟩] [] []).1
    (processSpotAssets [⟨"PURR/USDC", 0⟩, ⟨"PURR/USDT", 0⟩] [] []).2

/-- The spec's symbol-field rule coincides with the source's. -/
theorem specSymbolFieldRule_eq (c : SymbolConverter) (v : JsVal) (m : String) :
    specSymbolFieldRule c v m = convertSymbolOnValue c v m := rfl

/-- The spec's side rule coincides with the source's. -/
theorem specSideRule_eq (v : JsVal) : specSideRule v = sideValue v := rfl

mutual

/-- The spec's traversal and the source's traversal agree on every value. -/
theorem specValEq (c : SymbolConverter) (sf : List String) (m : String) :
    (v : JsVal) → translateEmbeddedSpec c v sf m = SymbolConverter.convertSymbolsInObject c v sf m
  | .str s => by
    simp only [translateEmbeddedSpec, SymbolConverter.convertSymbolsInObject, convertToNumber]
  | .num q => rfl
  | .jsBool b => rfl
  | .null => rfl
  | .arr items => by
    simp only [translateEmbeddedSpec, SymbolConverter.convertSymbolsInObject]
    rw [specArrEq c sf m items]
  | .obj fields => by
    simp only [translateEmbeddedSpec, SymbolConverter.convertSymbolsInObject]
    rw [specObjEq c sf m fields]

/-- The spec's traversal and the source's traversal agree on array spines. -/
theorem specArrEq (c : SymbolConverter) (sf : List String) (m : String) :
    (items : JsArr) → specArrItems c items sf m = convArrItems c items sf m
  | .nil => rfl
  | .cons v rest => by
    simp only [specArrItems, convArrItems]
    rw [specValEq c sf m v, specArrEq c sf m rest]

/-- The spec's field rules and the source's field loop agree on object
spines. -/
theorem specObjEq (c : SymbolConverter) (sf : List String) (m : String) :
    (fields : JsObj) → specObjFields c fields sf m = convObjFields c fields sf m
  | .nil => rfl
  | .cons key v rest => by
    simp only [specObjFields, convObjFields]
    rw [specObjEq c sf m rest, specSymbolFieldRule_eq, specSideRule_eq,
      specValEq c sf m v]

end

/-- C10: the `symbolMode` parameter of `SymbolConverter.convertSymbol` has no
effect — for every symbol, mode and pair of `symbolMode` values (including
`SPOT`/`PERP` as passed by the spot info API) the results coincide, so
callers requesting a forced `-SPOT`/`-PERP` suffix get no suffix forcing. -/
theorem c10_convertSymbol_symbolMode_inert (c : SymbolConverter)
    (symbol mode symbolMode symbolMode' : String) :
    c.convertSymbol symbol mode symbolMode = c.convertSymbol symbol mode symbolMode' := rfl

/-- C6: embedded translation deep-traverses a JSON-like value and applies
exactly the spec's three field/leaf rules — symbol-field replacement by
forward conversion, the `side` enum mapping, numeric coercion of integer or
decimal string leaves — passing everything else through unchanged. -/
theorem c6_convertSymbolsInObject_matches_spec (c : SymbolConverter)
    (symbolFields : List String) (symbolMode : String) (v : JsVal) :
    c.convertSymbolsInObject v symbolFields symbolMode =
      translateEmbeddedSpec c v symbolFields symbolMode :=
  (specValEq c symbolFields symbolMode v).symm

/-- C2: forward conversion of a string absent from the keys of the
exchange-to-internal map returns it unchanged (for any index, which the
code-level forward converter does not consult, and any `symbolMode` in the
`SymbolConverter` version), and reverse conversion of a string absent from
the values returns it unchanged; both the `SymbolConverter` and the
`WebSocketSubscriptions` (default-mode) converters are total functions, so
neither operation can throw. -/
theorem c2_resolve_reverse_fail_open :
    (∀ (c : SymbolConverter) (s : String) (_index : Nat) (symbolMode : String),
        mapGet c.exchangeToInternalNameMap s = none →
        c.convertSymbol s "" symbolMode = s)
  ∧ (∀ (c : SymbolConverter) (s : String) (symbolMode : String),
        (∀ p ∈ c.exchangeToInternalNameMap, p.2 ≠ s) →
        c.convertSymbol s "reverse" symbolMode = s)
  ∧ (∀ (em : List (String × String)) (s : String) (_index : Nat),
        mapGet em s = none → wsConvertSymbol em s "" "" = s)
  ∧ (∀ (em : List (String × String)) (s : String),
        (∀ p ∈ em, p.2 ≠ s) → wsConvertSymbol em s "reverse" "" = s) := by
  refine ⟨?_, ?_, ?_, ?_⟩
  · intro c s _index symbolMode h
    simp [SymbolConverter.convertSymbol, h]
  · intro c s symbolMode h
    have hfind : c.exchangeToInternalNameMap.find? (fun p => p.2 = s) = none :=
      List.find?_eq_none.mpr (fun p hp => by simpa using h p hp)
    simp [SymbolConverter.convertSymbol, hfind]
  · intro em s _index h
    simp [wsConvertSymbol, h]
  · intro em s h
    have hfind : em.find? (fun p => p.2 = s) = none :=
      List.find?_eq_none.mpr (fun p hp => by simpa using h p hp)
    simp [wsConvertSymbol, hfind]

/-- Witness for C2 at the spec's own scenario: `resolve("ZZZ", 99)` and
`reverse("ZZZ")` against a registry that has never seen `ZZZ`. -/
theorem c2_resolve_reverse_fail_open_witness :
    (SymbolConverter.convertSymbol ⟨[("BTC-0", "BTC-PERP-0")], []⟩ "ZZZ" "" "SPOT" = "ZZZ")
  ∧ (SymbolConverter.convertSymbol ⟨[("BTC-0", "BTC-PERP-0")], []⟩ "ZZZ" "reverse" "PERP" = "ZZZ")
  ∧ (wsConvertSymbol [("BTC-0", "BTC-PERP-0")] "ZZZ" "" "" = "ZZZ")
  ∧ (wsConvertSymbol [("BTC-0", "BTC-PERP-0")] "ZZZ" "reverse" "" = "ZZZ") :=
  ⟨c2_resolve_reverse_fail_open.1 ⟨[("BTC-0", "BTC-PERP-0")], []⟩ "ZZZ" 99 "SPOT" (by decide),
   c2_resolve_reverse_fail_open.2.1 ⟨[("BTC-0", "BTC-PERP-0")], []⟩ "ZZZ" "PERP" (by decide),
   c2_resolve_reverse_fail_open.2.2.1 [("BTC-0", "BTC-PERP-0")] "ZZZ" 99 (by decide),
   c2_resolve_reverse_fail_open.2.2.2 [("BTC-0", "BTC-PERP-0")] "ZZZ" (by decide)⟩

/-- The wait loop itself can only complete or stay pending — the capacity
error is thrown only by the guard before the loop is entered. -/
theorem waitLoop_ne_errorExceedsCapacity (weight : ℚ) (wakeups : List ℚ) :
    ∀ (s : RateLimiter) (n : Nat) (s' : RateLimiter),
      waitLoop weight s wakeups n ≠ .errorExceedsCapacity s' := by
  induction wakeups with
  | nil =>
    intro s n s'
    unfold waitLoop
    split <;> simp
  | cons w rest ih =>
    intro s n s'
    unfold waitLoop
    split
    · exact ih _ _ _
    · simp

/-- C9: `waitForToken(weight)` fails with the capacity error — immediately,
with the limiter state untouched and no tokens consumed — exactly when
`weight` exceeds the capacity of 1200; called with `weight` equal to the
capacity on a full bucket it completes with zero sleeps, consuming exactly
`weight` tokens. -/
theorem c9_waitForToken_capacity_guard :
    (∀ (s : RateLimiter) (weight now : ℚ) (wakeups : List ℚ),
        (RateLimiter.waitForToken s weight now wakeups = .errorExceedsCapacity s ↔
          RateLimiter.capacity < weight))
  ∧ RateLimiter.capacity = 1200
  ∧ (∀ (t : ℚ) (wakeups : List ℚ),
        RateLimiter.waitForToken ⟨RateLimiter.capacity, t⟩ RateLimiter.capacity t wakeups =
          .completed 0 ⟨0, t⟩) := by
  refine ⟨?_, rfl, ?_⟩
  · intro s weight now wakeups
    by_cases h : RateLimiter.capacity < weight
    · simp [RateLimiter.waitForToken, h]
    · have h1 := waitLoop_ne_errorExceedsCapacity weight wakeups (s.refillTokens now) 0 s
      simp [RateLimiter.waitForToken, h, h1]
  · intro t wakeups
    have hrefill : RateLimiter.refillTokens ⟨RateLimiter.capacity, t⟩ t =
        ⟨RateLimiter.capacity, t⟩ := by
      simp [RateLimiter.refillTokens]
    unfold RateLimiter.waitForToken
    rw [if_neg (lt_irrefl RateLimiter.capacity), hrefill]
    unfold waitLoop
    rw [if_neg (lt_irrefl RateLimiter.capacity)]
    simp

/-- The current (`BaseInfoAPI`) refresh builds two fresh local maps and
installs them only after both processing passes succeed, so a fetch
rejection or a processing throw leaves the converter's maps untouched. -/
theorem refreshAssetMaps_failure_keeps_maps (c : SymbolConverter) :
    (∀ e : Unit, refreshAssetMaps c (.error e) = c)
  ∧ (∀ spotResp, refreshAssetMaps c (.ok (.headThrows, spotResp)) = c)
  ∧ (∀ perpResp, refreshAssetMaps c (.ok (perpResp, .headThrows)) = c) := by
  refine ⟨fun e => rfl, fun spotResp => rfl, fun perpResp => ?_⟩
  cases perpResp <;> rfl

/-- C1 fails on the legacy refresh path: `HyperliquidAPI.refreshAssetToIndexMap`
clears both mappings in place after the fetch, so when parsing the fetched
metadata throws (here a perpetual response `[null]`, whose guard dereference
raises a `TypeError`), the caught error leaves the registry emptied: a lookup
that succeeded immediately before the refresh misses afterwards.  (The
`BaseInfoAPI.refreshAssetMaps` path, by contrast, satisfies the claim — see
`refreshAssetMaps_failure_keeps_maps`.) -/
theorem c1_legacy_refresh_parse_failure_empties_maps :
    refreshAssetToIndexMap ⟨[("PURR/USDC", "PURR-SPOT")], [("PURR-SPOT", 10000)]⟩
        (.ok (.headThrows, .notArray)) = ⟨[], []⟩
  ∧ mapGet (ApiMaps.exchangeToInternalNameMap
        ⟨[("PURR/USDC", "PURR-SPOT")], [("PURR-SPOT", 10000)]⟩) "PURR/USDC" = some "PURR-SPOT"
  ∧ mapGet (ApiMaps.exchangeToInternalNameMap
        (refreshAssetToIndexMap ⟨[("PURR/USDC", "PURR-SPOT")], [("PURR-SPOT", 10000)]⟩
          (.ok (.headThrows, .notArray)))) "PURR/USDC" = none := by
  decide

/-- C3 fails on the legacy construction: `HyperliquidAPI.processPerpetualAssets`
builds internal names without the index (`` `${asset.name}-PERP` ``), so the
duplicate ticker `USDC` listed at indices 0 and 1 yields the same internal
name twice and the second listing overwrites the first in both maps; the
legacy spot pass (`` `${baseToken.name}-SPOT` ``) collides the same way.
(The `BaseInfoAPI`/`SymbolConverter` construction appends the index, matching
SYMBOLS.md.) -/
theorem c3_legacy_internal_names_collide :
    apiPerpInternalName "USDC" 0 = apiPerpInternalName "USDC" 1
  ∧ perpLoopApi ["USDC", "USDC"] 0 ⟨[], []⟩ = ⟨[("USDC", "USDC-PERP")], [("USDC-PERP", 1)]⟩
  ∧ spotLoopApi ⟨[⟨"USDC/USDT", some [0]⟩, ⟨"USDC/USDH", some [0]⟩], some [some "USDC"]⟩
        [⟨"USDC/USDT", some [0]⟩, ⟨"USDC/USDH", some [0]⟩] 0 ⟨[], []⟩ =
      .ok ⟨[("USDC/USDT", "USDC-SPOT"), ("USDC/USDH", "USDC-SPOT")], [("USDC-SPOT", 10001)]⟩ := by
  decide

/-- C5 fails on the legacy maps: the keys that `HyperliquidAPI.processPerpetualAssets`
stores in `assetToIndexMap` end in `-PERP` with no trailing separator, so
they carry neither the `-PERP-` nor the `-SPOT-` marker. -/
theorem c5_legacy_keys_lack_market_markers :
    processPerpetualAssetsApi (.ok ["BTC"]) ⟨[], []⟩ =
      .ok ⟨[("BTC", "BTC-PERP")], [("BTC-PERP", 0)]⟩
  ∧ jsIncludes "BTC-PERP" "-PERP-" = false
  ∧ jsIncludes "BTC-PERP" "-SPOT-" = false := by
  decide

/-- C7 fails: `postRequest` derives the correlation id from `Date.now()`, so
two requests created within the same millisecond share one id, and a single
inbound `post` frame carrying that id satisfies both registered
`responseHandler` discriminators — each request's frame settles the other's
promise as well. -/
theorem c7_postRequest_id_collision :
    postRequestId 1728000000000 = postRequestId 1728000000000
  ∧ listenersTriggered [postRequestId 1728000000000, postRequestId 1728000000000] "post"
        (postRequestId 1728000000000) = [1728000000000, 1728000000000]
  ∧ (listenersTriggered [postRequestId 1728000000000, postRequestId 1728000000000] "post"
        (postRequestId 1728000000000)).length = 2 := by
  decide

/-- C8 fails: every authenticated `ExchangeAPI` method sets
`nonce = Date.now()`, so two actions signed within the same wall-clock
millisecond carry the same nonce — the second action reuses a nonce already
used by the same signer instead of a strictly larger one. -/
theorem c8_same_millisecond_nonce_reuse :
    sessionNonces [1728000000000, 1728000000000] = [1728000000000, 1728000000000]
  ∧ placeOrderNonce 1728000000000 = cancelOrderNonce 1728000000000
  ∧ ¬ placeOrderNonce 1728000000000 < cancelOrderNonce 1728000000000 := by
  decide

/-- C4 as stated is false.  First scenario: even for a single perpetual
listing, `resolve(reverse(resolve("BTC", 0)), 0)` re-appends the index to the
recovered composite key (`convertSymbol("BTC-0-0")` misses and fails open),
so it differs from `resolve("BTC", 0)`.  Second scenario: when two listings
construct the same internal name, `reverse` returns the first matching
composite key, so `reverse(resolve(exchangeSymbol, index))` does not recover
the listing's own composite key. -/
theorem c4_round_trip_counterexample :
    SymbolConverter.resolve convBTC "BTC" 0 = "BTC-PERP-0"
  ∧ SymbolConverter.resolve convBTC
        (SymbolConverter.reverse convBTC (SymbolConverter.resolve convBTC "BTC" 0)) 0 ≠
      SymbolConverter.resolve convBTC "BTC" 0
  ∧ SymbolConverter.reverse convPURR (SymbolConverter.resolve convPURR "PURR/USDT" 0) ≠
      "PURR/USDT-0" := by
  decide

/-- C4 amended: for a listing of a registry generation whose composite key
`"<exchangeSymbol>-<index>"` maps to an internal name that no other entry
shares, `reverse(resolve(exchangeSymbol, index))` recovers exactly that
composite key, and forward conversion of the recovered composite key (with
no index re-appended) gives back `resolve(exchangeSymbol, index)`. -/
theorem c4_round_trip_amended (c : SymbolConverter) (ex : String) (i : Nat) (v : String)
    (hget : mapGet c.exchangeToInternalNameMap (ex ++ "-" ++ Nat.repr i) = some v)
    (hv : v ≠ "")
    (huniq : ∀ p ∈ c.exchangeToInternalNameMap, p.2 = v → p.1 = ex ++ "-" ++ Nat.repr i) :
    c.reverse (c.resolve ex i) = ex ++ "-" ++ Nat.repr i
  ∧ c.convertSymbol (c.reverse (c.resolve ex i)) "" "" = c.resolve ex i := by
  have hres : c.resolve ex i = v := by
    simp [SymbolConverter.resolve, SymbolConverter.convertSymbol, hget, hv]
  have hmem : (ex ++ "-" ++ Nat.repr i, v) ∈ c.exchangeToInternalNameMap := by
    unfold mapGet at hget
    rcases Option.map_eq_some'.mp hget with ⟨p, hfind, hp2⟩
    have hp1 : p.1 = ex ++ "-" ++ Nat.repr i := by
      have := List.find?_some hfind
      simpa using this
    have := List.mem_of_find?_eq_some hfind
    rwa [← hp1, ← hp2]
  have hkeyne : ex ++ "-" ++ Nat.repr i ≠ "" := by
    intro h
    have h2 := congrArg String.data h
    simp [String.data_append] at h2
  have hrev : c.reverse v = ex ++ "-" ++ Nat.repr i := by
    obtain ⟨q, hq⟩ : ∃ q, c.exchangeToInternalNameMap.find? (fun p => p.2 = v) = some q := by
      cases hf : c.exchangeToInternalNameMap.find? (fun p => p.2 = v) with
      | none =>
        rw [List.find?_eq_none] at hf
        have := hf _ hmem
        simp at this
      | some q => exact ⟨q, rfl⟩
    have hq2 : q.2 = v := by simpa using List.find?_some hq
    have hq1 : q.1 = ex ++ "-" ++ Nat.repr i :=
      huniq q (List.mem_of_find?_eq_some hq) hq2
    simp [SymbolConverter.reverse, SymbolConverter.convertSymbol, hq, hq1, hkeyne]
  constructor
  · rw [hres]
    exact hrev
  · rw [hres, hrev]
    show c.resolve ex i = v
    exact hres

/-- Witness for the amended C4 at the `BTC` generation. -/
theorem c4_round_trip_amended_witness :
    mapGet convBTC.exchangeToInternalNameMap ("BTC" ++ "-" ++ Nat.repr 0) = some "BTC-PERP-0"
  ∧ ("BTC-PERP-0" ≠ "")
  ∧ (∀ p ∈ convBTC.exchangeToInternalNameMap,
        p.2 = "BTC-PERP-0" → p.1 = "BTC" ++ "-" ++ Nat.repr 0)
  ∧ (SymbolConverter.reverse convBTC (SymbolConverter.resolve convBTC "BTC" 0) =
        "BTC" ++ "-" ++ Nat.repr 0
      ∧ SymbolConverter.convertSymbol convBTC
          (SymbolConverter.reverse convBTC (SymbolConverter.resolve convBTC "BTC" 0)) "" "" =
        SymbolConverter.resolve convBTC "BTC" 0) :=
  ⟨by decide, by decide, by decide,
   c4_round_trip_amended convBTC "BTC" 0 "BTC-PERP-0" (by decide) (by decide) (by decide)⟩
